import Mathlib

/-!
Verification of the voxel51 api-js condition-polling core and job model.

The definitions below are a shallow embedding of the JavaScript source:

* `Value` models the JSON-ish JavaScript values the SDK manipulates
  (including `undefined`, which matters for default-parameter semantics).
* `JSError` models the error classes raised by the library
  (`APITimeoutError`, `JobExecutionError`, `APIError`,
  `RemoteDataPathError`, plus `TypeError` and caller-supplied errors).
* `UsersUtils.checkCondition` / `UsersUtils.waitForCondition` embed the
  poller of `src/lib/users/utils.js` (the variant whose `checkCondition`
  try/catches and rejects the returned promise with the condition error).
* `LibUtils.checkCondition` / `LibUtils.waitForCondition` embed the legacy
  poller of `src/lib/utils.js` (no try/catch: a condition rejection is an
  unhandled rejection of the inner async function, so the promise returned
  by `waitForCondition` never settles; modelled by the `WaitResult.hung`
  outcome).

Time is modelled by explicit natural-number instants: evaluation `k` of the
condition takes `d k` time units, `setTimeout` sleeps are exact, and the
session starts at instant 0, so the recorded deadline `now + maxWaitTime`
is just `maxWaitTime`.  The condition itself is modelled as a function from
the invocation index to the outcome of that invocation (a value or a raised
error), which captures an asynchronous predicate closing over changing
remote state.  The `fuel` argument bounds the recursion; `none` means the
session has not settled within `fuel` polls.
-/

/-- JavaScript runtime values, as far as the SDK observes them. -/
inductive Value where
  | null : Value
  | undefined : Value
  | bool : Bool → Value
  | num : Int → Value
  | str : String → Value
  | arr : List Value → Value
  | obj : List (String × Value) → Value
deriving Repr

/-- Errors raised by the library and its callers. -/
inductive JSError where
  | apiTimeout : String → JSError
  | jobExecution : String → JSError
  | apiError : String → Nat → JSError
  | remoteDataPath : String → JSError
  | typeError : String → JSError
  | custom : String → JSError
deriving Repr, DecidableEq

/-- JavaScript truthiness of a `Value` (`if (result)` in the source). -/
def truthy : Value → Bool
  | .null => false
  | .undefined => false
  | .bool b => b
  | .num n => n != 0
  | .str s => s != ""
  | .arr _ => true
  | .obj _ => true

/-- `isNullOrUndefined` from `src/lib/users/utils.js`. -/
def isNullOrUndefined : Value → Bool
  | .null => true
  | .undefined => true
  | _ => false

/-- Fate of one wait session: the promise resolves, rejects, or never
settles (`hung` models an unhandled rejection killing the poll loop while
the outer promise stays pending forever). -/
inductive WaitResult where
  | resolved : Value → WaitResult
  | rejected : JSError → WaitResult
  | hung : WaitResult
deriving Repr

namespace UsersUtils

/-- The poll loop `checkCondition` of `waitForCondition` in
`src/lib/users/utils.js`, run from invocation index `k` at instant `t`:
await the condition (its outcome is `cond k`, resolving at `t + d k`); a
raised error is caught and rejects the promise with that same error; a
truthy result resolves the promise; on a falsy result, if the current time
exceeds the recorded deadline `E` the promise rejects with
`APITimeoutError`, otherwise `setTimeout` reschedules the check after
`s` time units.  Returns the session fate together with the number of
condition evaluations performed and the instant the session settled. -/
def checkCondition (cond : Nat → Except JSError Value) (d : Nat → Nat)
    (s E : Nat) : Nat → Nat → Nat → Option (WaitResult × Nat × Nat)
  | 0, _, _ => none
  | fuel + 1, k, t =>
    match cond k with
    | .error e => some (.rejected e, k + 1, t + d k)
    | .ok v =>
      if truthy v then
        some (.resolved v, k + 1, t + d k)
      else if t + d k > E then
        some (.rejected (.apiTimeout "Maximum wait time exceeded"), k + 1, t + d k)
      else
        checkCondition cond d s E fuel (k + 1) (t + d k + s)

/-- `waitForCondition(condition, conditionArgs, sleepTime, maxWaitTime)`
from `src/lib/users/utils.js`: record the deadline `now + maxWaitTime`
(instant `maxWaitTime`, the session starting at instant 0) and start the
first check immediately. -/
def waitForCondition (cond : Nat → Except JSError Value) (d : Nat → Nat)
    (sleepTime maxWaitTime fuel : Nat) : Option (WaitResult × Nat × Nat) :=
  checkCondition cond d sleepTime maxWaitTime fuel 0 0

end UsersUtils

namespace LibUtils

/-- The poll loop of `waitForCondition` in `src/lib/utils.js`.  Identical
to `UsersUtils.checkCondition` except that `checkCondition` has no
try/catch: when the awaited condition rejects, the inner async function
rejects unhandled and the promise returned by `waitForCondition` never
settles (`WaitResult.hung`), with no further polling. -/
def checkCondition (cond : Nat → Except JSError Value) (d : Nat → Nat)
    (s E : Nat) : Nat → Nat → Nat → Option (WaitResult × Nat × Nat)
  | 0, _, _ => none
  | fuel + 1, k, t =>
    match cond k with
    | .error _ => some (.hung, k + 1, t + d k)
    | .ok v =>
      if truthy v then
        some (.resolved v, k + 1, t + d k)
      else if t + d k > E then
        some (.rejected (.apiTimeout "Maximum wait time exceeded"), k + 1, t + d k)
      else
        checkCondition cond d s E fuel (k + 1) (t + d k + s)

/-- `waitForCondition` from `src/lib/utils.js`. -/
def waitForCondition (cond : Nat → Except JSError Value) (d : Nat → Nat)
    (sleepTime maxWaitTime fuel : Nat) : Option (WaitResult × Nat × Nat) :=
  checkCondition cond d sleepTime maxWaitTime fuel 0 0

end LibUtils

/-- Instant at which condition evaluation `k` begins: evaluation 0 starts
immediately; evaluation `k + 1` starts one `setTimeout` sleep after
evaluation `k` resolves. -/
def evalStartTime (d : Nat → Nat) (s : Nat) : Nat → Nat
  | 0 => 0
  | k + 1 => evalStartTime d s k + d k + s

/-- Instant at which condition evaluation `k` resolves. -/
def evalEndTime (d : Nat → Nat) (s : Nat) (k : Nat) : Nat :=
  evalStartTime d s k + d k

/-- A condition that always resolves falsy. -/
def alwaysFalse : Nat → Except JSError Value :=
  fun _ => .ok (.bool false)

/-- A condition that always resolves truthy on the first call. -/
def alwaysTrue : Nat → Except JSError Value :=
  fun _ => .ok (.bool true)

/-- A condition that rejects with a caller error on every call. -/
def alwaysBoom : Nat → Except JSError Value :=
  fun _ => .error (.custom "boom")

/-- A condition that is falsy on call 0 and truthy from call 1 on. -/
def trueOnSecond : Nat → Except JSError Value :=
  fun k => if k = 0 then .ok (.bool false) else .ok (.str "done")

/-- Instantaneous condition evaluations. -/
def dZero : Nat → Nat :=
  fun _ => 0

/-- Association-list lookup of a JavaScript object property. -/
def lookupKey (fs : List (String × Value)) (k : String) : Option Value :=
  (fs.find? (fun p => p.1 == k)).map (fun p => p.2)

/-- JavaScript property access `v.k`: throws `TypeError` on `null` and
`undefined`, yields `undefined` for a missing property or a primitive
receiver. -/
def jsGet (v : Value) (k : String) : Except JSError Value :=
  match v with
  | .null => .error (.typeError "Cannot read properties of null")
  | .undefined => .error (.typeError "Cannot read properties of undefined")
  | .obj fs =>
    match lookupKey fs k with
    | some x => .ok x
    | none => .ok .undefined
  | _ => .ok .undefined

/-- JavaScript string coercion as used in `'Job ' + jobId`: exact on
primitives; arrays and objects (never used as job IDs) are approximated by
the empty string. -/
def jsToStr : Value → String
  | .str s => s
  | .null => "null"
  | .undefined => "undefined"
  | .bool b => if b then "true" else "false"
  | .num n => toString n
  | .arr _ => ""
  | .obj _ => ""

/-- JavaScript loose equality `v == s` against the non-numeric string
constants of the `JobState` enum: only a string with the same characters
compares equal. -/
def jsLooseEqStr (v : Value) (s : String) : Bool :=
  match v with
  | .str t => t == s
  | _ => false

namespace UsersApi

/-- `API.getJobState(jobId, job)` from the users API module
(`src/unnamed/part_016`): a truthy `jobId` takes the first branch and
fetches the state remotely via `getJobDetails(jobId)` (the external HTTP
accessor, modelled by the oracle `details`; the second component records
the job IDs for which a remote request was issued); otherwise a truthy
`job` supplies its own `state` field without any request; otherwise an
`APIError` with code 400 is thrown without any request. -/
def getJobState (details : Value → Except JSError Value) (jobId job : Value) :
    Except JSError Value × List Value :=
  if truthy jobId then
    ((details jobId).bind (fun dd => jsGet dd "state"), [jobId])
  else if truthy job then
    (jsGet job "state", [])
  else
    (.error (.apiError "Either `jobId` or `job` must be provided" 400), [])

/-- `API.isJobComplete(jobId, job)`: fetch the job state; a state loosely
equal to `JobState.FAILED` throws `JobExecutionError('Job ' + jobId + '
failed')`; otherwise resolve with whether the state equals
`JobState.COMPLETE`. -/
def isJobComplete (details : Value → Except JSError Value) (jobId job : Value) :
    Except JSError Value :=
  match (getJobState details jobId job).1 with
  | .error e => .error e
  | .ok st =>
    if jsLooseEqStr st "FAILED" then
      .error (.jobExecution ("Job " ++ jsToStr jobId ++ " failed"))
    else
      .ok (.bool (jsLooseEqStr st "COMPLETE"))

/-- The bound condition `boundIsJobComplete` passed to `waitForCondition`
by `waitUntilJobCompletes`: invocation `k` evaluates `isJobComplete(jobId)`
against the remote behaviour at poll `k` (the oracle `fetch k`, since the
remote job state may change between polls). -/
def jobCond (fetch : Nat → Value → Except JSError Value) (jobId : Value)
    (k : Nat) : Except JSError Value :=
  isJobComplete (fetch k) jobId .undefined

/-- `API.waitUntilJobCompletes(jobId, sleepTime = 5, maxWaitTime = 600)`:
delegates to `waitForCondition(boundIsJobComplete, [jobId],
1000 * sleepTime, 1000 * maxWaitTime)` — the caller-supplied seconds are
converted to the poller's milliseconds. -/
def waitUntilJobCompletes (fetch : Nat → Value → Except JSError Value)
    (jobId : Value) (d : Nat → Nat) (sleepTime maxWaitTime fuel : Nat) :
    Option (WaitResult × Nat × Nat) :=
  UsersUtils.waitForCondition (jobCond fetch jobId) d (1000 * sleepTime)
    (1000 * maxWaitTime) fuel

end UsersApi

namespace LegacyApi

/-- `API.getJobState(jobId)` of the legacy Vision Services API
(`src/unnamed/part_012`): always fetches the job details remotely via
`getJobDetails(jobId)` (the oracle `details`) and returns their `state`
field. -/
def getJobState (details : Value → Except JSError Value) (jobId : Value) :
    Except JSError Value :=
  (details jobId).bind (fun dd => jsGet dd "state")

/-- `API.isJobComplete(jobId)` of the legacy API: fetch the state; a state
loosely equal to `JobState.FAILED` throws
`JobExecutionError('Job ' + jobId + ' failed')`; otherwise resolve with
whether the state equals `JobState.COMPLETE`. -/
def isJobComplete (details : Value → Except JSError Value) (jobId : Value) :
    Except JSError Value :=
  match getJobState details jobId with
  | .error e => .error e
  | .ok st =>
    if jsLooseEqStr st "FAILED" then
      .error (.jobExecution ("Job " ++ jsToStr jobId ++ " failed"))
    else
      .ok (.bool (jsLooseEqStr st "COMPLETE"))

/-- The bound condition passed to the legacy poller by the legacy
`waitUntilJobCompletes`: invocation `k` evaluates `isJobComplete(jobId)`
against the remote behaviour at poll `k`. -/
def jobCond (fetch : Nat → Value → Except JSError Value) (jobId : Value)
    (k : Nat) : Except JSError Value :=
  isJobComplete (fetch k) jobId

/-- `API.waitUntilJobCompletes(jobId, sleepTime = 5, maxWaitTime = 600)` of
the legacy API (`src/unnamed/part_012`): delegates to the `src/lib/utils.js`
`waitForCondition` (the poller without the try/catch) with
`1000 * sleepTime` and `1000 * maxWaitTime`. -/
def waitUntilJobCompletes (fetch : Nat → Value → Except JSError Value)
    (jobId : Value) (d : Nat → Nat) (sleepTime maxWaitTime fuel : Nat) :
    Option (WaitResult × Nat × Nat) :=
  LibUtils.waitForCondition (jobCond fetch jobId) d (1000 * sleepTime)
    (1000 * maxWaitTime) fuel

end LegacyApi

/-- A remote whose status fetch always reports a pending (`QUEUED`) job. -/
def pendingFetch : Nat → Value → Except JSError Value :=
  fun _ _ => .ok (.obj [("state", .str "QUEUED")])

/-- A remote whose status fetch always reports a `FAILED` job. -/
def failedFetch : Nat → Value → Except JSError Value :=
  fun _ _ => .ok (.obj [("state", .str "FAILED")])

/-- A details accessor always reporting a `RUNNING` job. -/
def runningDetails : Value → Except JSError Value :=
  fun _ => .ok (.obj [("state", .str "RUNNING")])

namespace UsersJobs

/-- The JSON field name used by `RemoteDataPath` (`src/lib/users/jobs.js`). -/
def DATA_ID_FIELD : String := "data-id"

mutual

/-- `_recurse` from `Serializable.toObject` in `src/lib/users/utils.js`,
restricted to plain (non-`Serializable`) values: arrays and objects are
rebuilt element-wise / field-wise, everything else is returned as is. -/
def recurseValue : Value → Value
  | .arr xs => .arr (recurseList xs)
  | .obj fs => .obj (recurseObj fs)
  | .null => .null
  | .undefined => .undefined
  | .bool b => .bool b
  | .num n => .num n
  | .str s => .str s

def recurseList : List Value → List Value
  | [] => []
  | x :: xs => recurseValue x :: recurseList xs

def recurseObj : List (String × Value) → List (String × Value)
  | [] => []
  | (k, v) :: fs => (k, recurseValue v) :: recurseObj fs

end

/-- `RemoteDataPath`'s `hasDataId` getter: `this.dataId !== null`, where
`d` is the stored `dataId`. -/
def rdpHasDataId (d : Value) : Bool :=
  match d with
  | .null => false
  | _ => true

/-- `RemoteDataPath`'s `Serializable.toObject`, on the stored `dataId` `d`:
its `attributes_` yields the single field `dataId -> 'data-id'` when
`hasDataId` holds and throws `RemoteDataPathError` otherwise. -/
def rdpToObject (d : Value) : Except JSError Value :=
  if rdpHasDataId d then
    .ok (.obj [(DATA_ID_FIELD, recurseValue d)])
  else
    .error (.remoteDataPath "Invalid RemoteDataPath")

/-- `RemoteDataPath.fromObject(obj)`: if `'data-id' in obj`, construct
`new RemoteDataPath(obj['data-id'])` — the constructor default turns a
passed `undefined` into `null`, and a `null` data ID fails the validity
check with `RemoteDataPathError`; without the field, throw
`RemoteDataPathError`; the `in` operator itself throws `TypeError` on a
non-object.  Returns the `dataId` stored in the constructed instance. -/
def rdpFromObject (v : Value) : Except JSError Value :=
  match v with
  | .obj fs =>
    match lookupKey fs DATA_ID_FIELD with
    | some dv =>
      match (match dv with | .undefined => Value.null | x => x) with
      | .null => .error (.remoteDataPath "Invalid RemoteDataPath")
      | x => .ok x
    | none => .error (.remoteDataPath "Invalid RemoteDataPath object")
  | .arr _ => .error (.remoteDataPath "Invalid RemoteDataPath object")
  | .null => .error (.typeError "Cannot use in operator on null")
  | .undefined => .error (.typeError "Cannot use in operator on undefined")
  | _ => .error (.typeError "Cannot use in operator on a primitive")

/-- `RemoteDataPath.isRemotePathObject(val)`: try `fromObject`, catching
any error. -/
def isRemotePathObject (v : Value) : Bool :=
  match rdpFromObject v with
  | .ok _ => true
  | .error _ => false

/-- A value stored in a `JobRequest`'s `inputs`/`parameters` maps: either a
plain JSON value or a `RemoteDataPath` instance, tagged with its stored
`dataId` (the classification JavaScript performs via
`instanceof Serializable`). -/
inductive JVal where
  | plain : Value → JVal
  | rdp : Value → JVal

/-- The `JobRequest` class of `src/lib/users/jobs.js`: the serialized
attributes `analytic`, `version`, `computeMode`, and the `inputs` and
`parameters` maps (association lists in JavaScript property order). -/
structure JobRequest where
  analytic : Value
  version : Value
  computeMode : Value
  inputs : List (String × JVal)
  parameters : List (String × JVal)

/-- JavaScript property assignment `m[name] = v` on a map object:
overwrite in place when the key exists, append otherwise. -/
def setKey (l : List (String × JVal)) (k : String) (x : JVal) :
    List (String × JVal) :=
  if l.any (fun p => p.1 == k) then
    l.map (fun p => if p.1 == k then (k, x) else p)
  else
    l ++ [(k, x)]

/-- `JobRequest.setInput(name, path)`. -/
def JobRequest.setInput (jr : JobRequest) (n : String) (x : JVal) :
    JobRequest :=
  { jr with inputs := setKey jr.inputs n x }

/-- `JobRequest.setDataParameter(name, path)`. -/
def JobRequest.setDataParameter (jr : JobRequest) (n : String) (x : JVal) :
    JobRequest :=
  { jr with parameters := setKey jr.parameters n x }

/-- `JobRequest.setParameter(name, val)`. -/
def JobRequest.setParameter (jr : JobRequest) (n : String) (x : JVal) :
    JobRequest :=
  { jr with parameters := setKey jr.parameters n x }

/-- `_recurse` on one stored map value: a `RemoteDataPath` instance is a
`Serializable`, so `_recurse` calls its `toObject`; a plain value recurses
structurally. -/
def jvalToObject : JVal → Except JSError Value
  | .plain v => .ok (recurseValue v)
  | .rdp d => rdpToObject d

/-- `_recurse` over an `inputs`/`parameters` map object: rebuild the object
field by field, propagating any `RemoteDataPathError` a value's `toObject`
throws. -/
def mapToObject : List (String × JVal) → Except JSError (List (String × Value))
  | [] => .ok []
  | (n, x) :: rest =>
    match jvalToObject x with
    | .error e => .error e
    | .ok v =>
      match mapToObject rest with
      | .error e => .error e
      | .ok vs => .ok ((n, v) :: vs)

/-- `JobRequest`'s `Serializable.toObject`: its `attributes_` override
lists `analytic`, then `version` (only when not null/undefined), then
`computeMode` serialized as `compute_mode` (only when not null/undefined),
then `inputs` and `parameters`; each attribute value runs through
`_recurse`. -/
def JobRequest.toObject (jr : JobRequest) : Except JSError Value :=
  match mapToObject jr.inputs with
  | .error e => .error e
  | .ok inputsV =>
    match mapToObject jr.parameters with
    | .error e => .error e
    | .ok paramsV =>
      .ok (.obj
        ([("analytic", recurseValue jr.analytic)]
          ++ (if isNullOrUndefined jr.version then []
              else [("version", recurseValue jr.version)])
          ++ (if isNullOrUndefined jr.computeMode then []
              else [("compute_mode", recurseValue jr.computeMode)])
          ++ [("inputs", .obj inputsV), ("parameters", .obj paramsV)]))

/-- `for (var name in obj) if (obj.hasOwnProperty(name))` enumeration: the
own enumerable properties of an object, the indices of an array, nothing
for any other value. -/
def forInPairs : Value → List (String × Value)
  | .obj fs => fs
  | .arr xs => xs.enum.map (fun p => (toString p.1, p.2))
  | _ => []

/-- The `// Set inputs` loop of `JobRequest.fromObject`: for each entry,
`RemoteDataPath.fromObject` (errors propagate) then `setInput`. -/
def setInputsFromObj (jr : JobRequest) :
    List (String × Value) → Except JSError JobRequest
  | [] => .ok jr
  | (n, v) :: rest =>
    match rdpFromObject v with
    | .error e => .error e
    | .ok d => setInputsFromObj (jr.setInput n (.rdp d)) rest

/-- The `// Set parameters` loop of `JobRequest.fromObject`: an entry
accepted by `RemoteDataPath.isRemotePathObject` becomes a data parameter
built by `RemoteDataPath.fromObject` (which cannot throw there, being the
very call `isRemotePathObject` just tried), any other entry a plain
parameter. -/
def setParamsFromObj (jr : JobRequest) :
    List (String × Value) → JobRequest
  | [] => jr
  | (n, v) :: rest =>
    match rdpFromObject v with
    | .ok d => setParamsFromObj (jr.setDataParameter n (.rdp d)) rest
    | .error _ => setParamsFromObj (jr.setParameter n (.plain v)) rest

/-- `JobRequest.fromObject(obj)`: construct
`new JobRequest(obj.analytic, obj.version, obj.compute_mode)` (the
constructor defaults turn a missing/`undefined` `version` or
`compute_mode` into `null`), then run the inputs and parameters loops. -/
def JobRequest.fromObject (o : Value) : Except JSError JobRequest :=
  match jsGet o "analytic" with
  | .error e => .error e
  | .ok analytic =>
    match jsGet o "version" with
    | .error e => .error e
    | .ok version =>
      match jsGet o "compute_mode" with
      | .error e => .error e
      | .ok computeMode =>
        let jr0 : JobRequest :=
          { analytic := analytic
            version := match version with | .undefined => Value.null | x => x
            computeMode :=
              match computeMode with | .undefined => Value.null | x => x
            inputs := []
            parameters := [] }
        match jsGet o "inputs" with
        | .error e => .error e
        | .ok inputsV =>
          match setInputsFromObj jr0 (forInPairs inputsV) with
          | .error e => .error e
          | .ok jr1 =>
            match jsGet o "parameters" with
            | .error e => .error e
            | .ok paramsV => .ok (setParamsFromObj jr1 (forInPairs paramsV))

/-- The serialized form of a map value that serializes without error:
a valid `RemoteDataPath` becomes its `data-id` wrapper, a plain value is
(deeply copied, hence) unchanged.  Proof-side helper. -/
def serGoodJVal : JVal → Value
  | .plain v => v
  | .rdp d => .obj [(DATA_ID_FIELD, d)]

end UsersJobs

/-- A concrete job request: an analytic with the latest version, GPU
compute mode, one input, one plain parameter and one data parameter. -/
def wjr : UsersJobs.JobRequest :=
  { analytic := .str "vehicle-detector"
    version := .null
    computeMode := .str "GPU"
    inputs := [("video", .rdp (.str "d1"))]
    parameters := [("threshold", .plain (.num 5)), ("mask", .rdp (.str "d2"))] }

/-- Helper: under an always-falsy condition, any settled session fate of the
users-variant poll loop is the timeout rejection, from any index and
instant. -/
theorem checkCondition_alwaysFalsy_timeout (cond : Nat → Except JSError Value)
    (d : Nat → Nat) (s E : Nat)
    (h : ∀ k, ∃ v, cond k = .ok v ∧ truthy v = false) :
    ∀ fuel k t r, UsersUtils.checkCondition cond d s E fuel k t = some r →
      r.1 = .rejected (.apiTimeout "Maximum wait time exceeded") := by
  intro fuel
  induction fuel with
  | zero => intro k t r hr; simp [UsersUtils.checkCondition] at hr
  | succ n ih =>
    intro k t r hr
    obtain ⟨v, hv, hf⟩ := h k
    by_cases hE : t + d k > E
    · simp [UsersUtils.checkCondition, hv, hf, hE] at hr
      simp [← hr]
    · simp [UsersUtils.checkCondition, hv, hf, hE] at hr
      exact ih _ _ _ hr

/-- Helper: a settled session starting at evaluation index `k` has performed
at least `k + 1` condition evaluations. -/
theorem checkCondition_evalCount_ge (cond : Nat → Except JSError Value)
    (d : Nat → Nat) (s E : Nat) :
    ∀ fuel k t r, UsersUtils.checkCondition cond d s E fuel k t = some r →
      k + 1 ≤ r.2.1 := by
  intro fuel
  induction fuel with
  | zero => intro k t r hr; simp [UsersUtils.checkCondition] at hr
  | succ n ih =>
    intro k t r hr
    match hv : cond k with
    | .error e =>
      simp [UsersUtils.checkCondition, hv] at hr
      simp [← hr]
    | .ok v =>
      by_cases ht : truthy v
      · simp [UsersUtils.checkCondition, hv, ht] at hr
        simp [← hr]
      · by_cases hE : t + d k > E
        · simp [UsersUtils.checkCondition, hv, ht, hE] at hr
          simp [← hr]
        · simp [UsersUtils.checkCondition, hv, ht, hE] at hr
          have := ih _ _ _ hr
          omega

/-- C5: a condition truthy on its very first evaluation makes
`waitForCondition` resolve with that value after exactly one evaluation,
settling at instant `d 0` (no sleep contributes); and every settled wait
session has performed at least one condition evaluation, the first one
starting before any sleep. -/
theorem waitForCondition_immediate_success :
    (∀ (cond : Nat → Except JSError Value) (d : Nat → Nat) (s m fuel : Nat)
        (v : Value), 0 < fuel → cond 0 = .ok v → truthy v = true →
        UsersUtils.waitForCondition cond d s m fuel
          = some (.resolved v, 1, d 0))
    ∧ (∀ (cond : Nat → Except JSError Value) (d : Nat → Nat) (s m fuel : Nat)
        (r : WaitResult × Nat × Nat),
        UsersUtils.waitForCondition cond d s m fuel = some r → 1 ≤ r.2.1) := by
  constructor
  · intro cond d s m fuel v hfuel h0 ht
    match fuel, hfuel with
    | fuel + 1, _ =>
      simp [UsersUtils.waitForCondition, UsersUtils.checkCondition, h0, ht]
  · intro cond d s m fuel r hr
    exact checkCondition_evalCount_ge cond d s m fuel 0 0 r hr

/-- C5 witness: a condition that is truthy immediately resolves after one
evaluation at instant 0. -/
theorem waitForCondition_immediate_success_witness :
    UsersUtils.waitForCondition alwaysTrue dZero 7 9 3
      = some (.resolved (.bool true), 1, 0) :=
  waitForCondition_immediate_success.1 alwaysTrue dZero 7 9 3 (.bool true)
    (by decide) rfl rfl

/-- C4: `waitForCondition` fixes its deadline as `maxWaitTime` past the
session start, once, before the first check (first conjunct: the session is
the poll loop run with `E = maxWaitTime` from index 0 at instant 0); and
for a condition that never resolves truthy and never raises, every settled
session fate is a rejection with the message-only `APITimeoutError` — the
only error the poller itself introduces. -/
theorem waitForCondition_timeout_only_poller_error :
    (∀ (cond : Nat → Except JSError Value) (d : Nat → Nat) (s m fuel : Nat),
        UsersUtils.waitForCondition cond d s m fuel
          = UsersUtils.checkCondition cond d s m fuel 0 0)
    ∧ (∀ (cond : Nat → Except JSError Value) (d : Nat → Nat) (s m fuel : Nat)
        (r : WaitResult × Nat × Nat),
        (∀ k, ∃ v, cond k = .ok v ∧ truthy v = false) →
        UsersUtils.waitForCondition cond d s m fuel = some r →
        r.1 = .rejected (.apiTimeout "Maximum wait time exceeded")) := by
  constructor
  · intro cond d s m fuel; rfl
  · intro cond d s m fuel r h hr
    exact checkCondition_alwaysFalsy_timeout cond d s m h fuel 0 0 r hr

/-- C4 witness: the always-false condition with `sleepTime = 1`,
`maxWaitTime = 2` times out, and the settled fate is the timeout
rejection. -/
theorem waitForCondition_timeout_only_poller_error_witness :
    ((WaitResult.rejected (.apiTimeout "Maximum wait time exceeded"), 4, 3)
        : WaitResult × Nat × Nat).1
      = .rejected (.apiTimeout "Maximum wait time exceeded") :=
  waitForCondition_timeout_only_poller_error.2 alwaysFalse dZero 1 2 10 _
    (fun _ => ⟨.bool false, rfl, rfl⟩) rfl

/-- C1 counterexample: the `src/lib/utils.js` poller does not reject the
returned promise with the condition error.  With a condition that rejects
with the caller error `boom` on its first invocation (all of the
100-time-unit budget remaining), the session fate is `hung` — the inner
async `checkCondition` rejects unhandled and the returned promise never
settles, which is not a rejection with `boom`. -/
theorem waitForCondition_lib_error_never_rejects :
    LibUtils.waitForCondition alwaysBoom dZero 1 100 5 = some (.hung, 1, 0)
      ∧ WaitResult.hung ≠ WaitResult.rejected (.custom "boom") :=
  ⟨rfl, fun h => WaitResult.noConfusion h⟩

/-- Helper: one poll step of the users-variant loop on a condition error
rejects with exactly that error. -/
theorem checkCondition_error_step (cond : Nat → Except JSError Value)
    (d : Nat → Nat) (s E fuel k t : Nat) (e : JSError) (hfuel : 0 < fuel)
    (hk : cond k = .error e) :
    UsersUtils.checkCondition cond d s E fuel k t
      = some (.rejected e, k + 1, t + d k) := by
  match fuel, hfuel with
  | fuel + 1, _ => simp [UsersUtils.checkCondition, hk]

/-- C1 (amended): for the `src/lib/users/utils.js` poller, a condition that
raises error `e` on invocation `k` (reached at any instant `t`, with any
remaining budget `E`) makes the wait reject with exactly `e`, immediately —
that invocation is the last, and no reinterpretation as a timeout occurs;
in particular an error on the first invocation rejects the whole
`waitForCondition` call with `e` after one evaluation. -/
theorem waitForCondition_error_propagation :
    (∀ (cond : Nat → Except JSError Value) (d : Nat → Nat) (s E fuel k t : Nat)
        (e : JSError), 0 < fuel → cond k = .error e →
        UsersUtils.checkCondition cond d s E fuel k t
          = some (.rejected e, k + 1, t + d k))
    ∧ (∀ (cond : Nat → Except JSError Value) (d : Nat → Nat) (s m fuel : Nat)
        (e : JSError), 0 < fuel → cond 0 = .error e →
        UsersUtils.waitForCondition cond d s m fuel
          = some (.rejected e, 1, d 0)) := by
  constructor
  · intro cond d s E fuel k t e hfuel hk
    exact checkCondition_error_step cond d s E fuel k t e hfuel hk
  · intro cond d s m fuel e hfuel h0
    have h := checkCondition_error_step cond d s m fuel 0 0 e hfuel h0
    simpa [UsersUtils.waitForCondition] using h

/-- C1 witness: a condition rejecting with `boom` on its first call makes
the users-variant `waitForCondition` reject with exactly `boom` after one
evaluation, despite a 100-time-unit budget. -/
theorem waitForCondition_error_propagation_witness :
    UsersUtils.waitForCondition alwaysBoom dZero 1 100 5
      = some (.rejected (.custom "boom"), 1, 0) :=
  waitForCondition_error_propagation.2 alwaysBoom dZero 1 100 5
    (.custom "boom") (by decide) rfl

/-- C3 counterexample: with the always-false condition,
`waitForCondition(cond, [], 1, 3)` (instantaneous evaluations, exact
sleeps) rejects with the timeout only after 5 condition evaluations, at
instant 4 — more than the claimed upper bound of `ceil(3/1) + 1 = 4`
evaluations: the strict post-evaluation deadline check `now > endTime`
lets the evaluation at instant 3 run and schedules one more at
instant 4. -/
theorem waitForCondition_timeout_eval_count_exceeds_bound :
    UsersUtils.waitForCondition alwaysFalse dZero 1 3 10
      = some (.rejected (.apiTimeout "Maximum wait time exceeded"), 5, 4)
      ∧ ¬(5 ≤ 4) :=
  ⟨rfl, by decide⟩

/-- C3 (amended): for every condition that always resolves falsy,
`waitForCondition(cond, [], pollInterval = 1, maxWait = 3)` with
instantaneous evaluations and exact sleeps rejects with `APITimeoutError`
after exactly `floor(3/1) + 2 = 5` condition evaluations, settling at
instant 4. -/
theorem waitForCondition_timeout_eval_count (cond : Nat → Except JSError Value)
    (fuel : Nat) (h : ∀ k, ∃ v, cond k = .ok v ∧ truthy v = false)
    (hfuel : 5 ≤ fuel) :
    UsersUtils.waitForCondition cond dZero 1 3 fuel
      = some (.rejected (.apiTimeout "Maximum wait time exceeded"), 5, 4) := by
  obtain ⟨f, rfl⟩ : ∃ f, fuel = f + 1 + 1 + 1 + 1 + 1 :=
    ⟨fuel - 5, by omega⟩
  obtain ⟨v0, h0, f0⟩ := h 0
  obtain ⟨v1, h1, f1⟩ := h 1
  obtain ⟨v2, h2, f2⟩ := h 2
  obtain ⟨v3, h3, f3⟩ := h 3
  obtain ⟨v4, h4, f4⟩ := h 4
  simp [UsersUtils.waitForCondition, UsersUtils.checkCondition, dZero,
    h0, f0, h1, f1, h2, f2, h3, f3, h4, f4]

/-- C3 witness: the always-false condition at `pollInterval = 1`,
`maxWait = 3` rejects with the timeout after exactly 5 evaluations. -/
theorem waitForCondition_timeout_eval_count_witness :
    UsersUtils.waitForCondition alwaysFalse dZero 1 3 6
      = some (.rejected (.apiTimeout "Maximum wait time exceeded"), 5, 4) :=
  waitForCondition_timeout_eval_count alwaysFalse 6
    (fun _ => ⟨.bool false, rfl, rfl⟩) (by decide)

/-- Helper for C6: with instantaneous evaluations, a condition falsy
strictly before invocation `j` and truthy at `j`, within budget, resolves
from any reached index `k ≤ j` (current instant `k * s`) with `j + 1` total
evaluations at instant `j * s`. -/
theorem checkCondition_eventual_success (cond : Nat → Except JSError Value)
    (s m j : Nat) (r : Value)
    (hfalsy : ∀ i, i < j → ∃ v, cond i = .ok v ∧ truthy v = false)
    (hj : cond j = .ok r) (ht : truthy r = true) (hm : (j + 1) * s < m) :
    ∀ fuel k, k ≤ j → j + 1 ≤ fuel + k →
      UsersUtils.checkCondition cond dZero s m fuel k (k * s)
        = some (.resolved r, j + 1, j * s) := by
  intro fuel
  induction fuel with
  | zero => intro k hk hfk; omega
  | succ n ih =>
    intro k hk hfk
    rcases Nat.eq_or_lt_of_le hk with heq | hlt
    · subst heq
      simp [UsersUtils.checkCondition, dZero, hj, ht]
    · obtain ⟨v, hv, hf⟩ := hfalsy k hlt
      have hks : ¬ (k * s + dZero k > m) := by
        have h1 : k * s ≤ (j + 1) * s := Nat.mul_le_mul_right s (by omega)
        simp [dZero]; omega
      have hnext : k * s + dZero k + s = (k + 1) * s := by
        simp [dZero, Nat.succ_mul]
      simp only [UsersUtils.checkCondition, hv, hf, if_neg hks, hnext,
        Bool.false_eq_true, if_false]
      exact ih (k + 1) (by omega) (by omega)

/-- C6: with instantaneous evaluations and exact sleeps, a condition that
resolves falsy on its first `j` invocations and truthy with value `r` on
invocation `j + 1` (1-indexed `k = j + 1`, with `k * pollInterval <
maxWait`) makes `waitForCondition` resolve with `r` after exactly `k`
condition evaluations, at instant `j * pollInterval`. -/
theorem waitForCondition_eventual_success (cond : Nat → Except JSError Value)
    (s m fuel j : Nat) (r : Value)
    (hfalsy : ∀ i, i < j → ∃ v, cond i = .ok v ∧ truthy v = false)
    (hj : cond j = .ok r) (ht : truthy r = true) (hm : (j + 1) * s < m)
    (hfuel : j + 1 ≤ fuel) :
    UsersUtils.waitForCondition cond dZero s m fuel
      = some (.resolved r, j + 1, j * s) := by
  have h := checkCondition_eventual_success cond s m j r hfalsy hj ht hm fuel 0
    (Nat.zero_le j) (by omega)
  simpa [UsersUtils.waitForCondition] using h

/-- C6 witness: a condition falsy once then truthy with the string `done`
on call 2, at `pollInterval = 1`, `maxWait = 5`, resolves with `done` after
exactly 2 evaluations. -/
theorem waitForCondition_eventual_success_witness :
    UsersUtils.waitForCondition trueOnSecond dZero 1 5 4
      = some (.resolved (.str "done"), 2, 1) := by
  have h := waitForCondition_eventual_success trueOnSecond 1 5 4 1 (.str "done")
    (fun i hi => by interval_cases i; exact ⟨.bool false, rfl, rfl⟩)
    rfl rfl (by decide) (by decide)
  simpa using h

/-- Helper for C8: evaluation start instants are monotone. -/
theorem evalStartTime_mono (d : Nat → Nat) (s : Nat) :
    ∀ k l, k ≤ l → evalStartTime d s k ≤ evalStartTime d s l := by
  intro k l
  induction l with
  | zero =>
    intro hkl
    have hk0 : k = 0 := by omega
    subst hk0
    exact le_refl _
  | succ n ih =>
    intro hkl
    rcases Nat.eq_or_lt_of_le hkl with heq | hlt
    · subst heq
      exact le_refl _
    · have h := ih (by omega)
      simp only [evalStartTime]
      omega

/-- C8: condition evaluations within one wait session are strictly
sequential.  First conjunct: whenever evaluation `k` resolves falsy within
budget, the poll loop continues exactly as the loop whose next evaluation
is `k + 1` starting at `evalEndTime k + sleepTime` — the single pending
`setTimeout` wakeup — so evaluation `k + 1` begins only after evaluation
`k` has resolved.  Second conjunct: for any two evaluations `k < l`,
evaluation `k` has ended by the time evaluation `l` starts; no two
evaluations are ever in flight concurrently. -/
theorem checkCondition_sequential_evaluations :
    (∀ (cond : Nat → Except JSError Value) (d : Nat → Nat) (s E fuel k : Nat)
        (v : Value), cond k = .ok v → truthy v = false →
        evalEndTime d s k ≤ E →
        UsersUtils.checkCondition cond d s E (fuel + 1) k (evalStartTime d s k)
          = UsersUtils.checkCondition cond d s E fuel (k + 1)
              (evalStartTime d s (k + 1)))
    ∧ (∀ (d : Nat → Nat) (s k l : Nat), k < l →
        evalEndTime d s k ≤ evalStartTime d s l) := by
  constructor
  · intro cond d s E fuel k v hv hf hE
    have hne : ¬ (evalStartTime d s k + d k > E) := by
      simp only [evalEndTime] at hE; omega
    simp only [UsersUtils.checkCondition, hv, hf, if_neg hne,
      Bool.false_eq_true, if_false]
    rfl
  · intro d s k l hkl
    have h1 := evalStartTime_mono d s (k + 1) l hkl
    simp only [evalStartTime, evalEndTime] at h1 ⊢
    omega

/-- C8 witness: with the always-false condition, instantaneous evaluations
and `sleepTime = 1`, one poll step from evaluation 0 continues as the loop
at evaluation 1 an instant later, and evaluation 0 ends before evaluation 2
starts. -/
theorem checkCondition_sequential_evaluations_witness :
    (UsersUtils.checkCondition alwaysFalse dZero 1 10 2 0
        (evalStartTime dZero 1 0)
      = UsersUtils.checkCondition alwaysFalse dZero 1 10 1 1
        (evalStartTime dZero 1 1))
    ∧ evalEndTime dZero 1 0 ≤ evalStartTime dZero 1 2 :=
  ⟨checkCondition_sequential_evaluations.1 alwaysFalse dZero 1 10 1 0
      (.bool false) rfl rfl (by decide),
    checkCondition_sequential_evaluations.2 dZero 1 0 2 (by decide)⟩

/-- Helper for C2: when the status fetch reports `FAILED`, `isJobComplete`
throws the identifying `JobExecutionError`. -/
theorem isJobComplete_failed (details : Value → Except JSError Value)
    (jobId : String)
    (h : (UsersApi.getJobState details (.str jobId) .undefined).1
      = .ok (.str "FAILED")) :
    UsersApi.isJobComplete details (.str jobId) .undefined
      = .error (.jobExecution ("Job " ++ jobId ++ " failed")) := by
  simp [UsersApi.isJobComplete, h, jsLooseEqStr, jsToStr]

/-- C2 counterexample: the legacy Vision Services
`waitUntilJobCompletes` (`src/unnamed/part_012`, one of the claim's two
cited variants) does not reject with `JobExecutionError` when the status
fetch reports `FAILED`.  With a remote reporting `FAILED` on the very
first poll and the default 5 s / 600 s timing, the thrown
`JobExecutionError` is an unhandled rejection of the no-try/catch
`src/lib/utils.js` poll loop: polling stops after that one fetch but the
returned promise never settles (`hung`) — which is not a rejection with
the identifying `JobExecutionError`. -/
theorem waitUntilJobCompletes_failed_legacy_never_rejects :
    LegacyApi.waitUntilJobCompletes failedFetch (.str "j1") dZero 5 600 9
      = some (.hung, 1, 0)
      ∧ WaitResult.hung
        ≠ WaitResult.rejected (.jobExecution "Job j1 failed") :=
  ⟨rfl, fun h => WaitResult.noConfusion h⟩

/-- C2 (amended): for the users Platform API (`src/unnamed/part_016`),
whose `waitUntilJobCompletes` delegates to the `src/lib/users/utils.js`
poller, whenever a poll's status fetch reports state `FAILED` the wait
rejects immediately with the `JobExecutionError` identifying the job.
First conjunct: at any reached evaluation index `k`, any instant, any
remaining budget, the poll loop over the bound job-completion condition
settles as a rejection with `JobExecutionError('Job ' + jobId + ' failed')`
and performs no further evaluation.  Second conjunct: in particular, a
`FAILED` report on the very first poll rejects the whole
`waitUntilJobCompletes` call after exactly one status fetch, for every
`maxWaitTime` — the job is neither reported complete nor polled again.
(The legacy `src/unnamed/part_012` variant instead leaves its promise
unsettled, per the counterexample above.) -/
theorem waitUntilJobCompletes_failed_rejects :
    (∀ (fetch : Nat → Value → Except JSError Value) (jobId : String)
        (d : Nat → Nat) (s E fuel k t : Nat), 0 < fuel →
        (UsersApi.getJobState (fetch k) (.str jobId) .undefined).1
          = .ok (.str "FAILED") →
        UsersUtils.checkCondition (UsersApi.jobCond fetch (.str jobId)) d s E
            fuel k t
          = some (.rejected (.jobExecution ("Job " ++ jobId ++ " failed")),
              k + 1, t + d k))
    ∧ (∀ (fetch : Nat → Value → Except JSError Value) (jobId : String)
        (d : Nat → Nat) (s m fuel : Nat), 0 < fuel →
        (UsersApi.getJobState (fetch 0) (.str jobId) .undefined).1
          = .ok (.str "FAILED") →
        UsersApi.waitUntilJobCompletes fetch (.str jobId) d s m fuel
          = some (.rejected (.jobExecution ("Job " ++ jobId ++ " failed")),
              1, d 0)) := by
  constructor
  · intro fetch jobId d s E fuel k t hfuel hst
    have he : UsersApi.jobCond fetch (.str jobId) k
        = .error (.jobExecution ("Job " ++ jobId ++ " failed")) := by
      simpa [UsersApi.jobCond] using isJobComplete_failed (fetch k) jobId hst
    exact checkCondition_error_step _ d s E fuel k t _ hfuel he
  · intro fetch jobId d s m fuel hfuel hst
    have he : UsersApi.jobCond fetch (.str jobId) 0
        = .error (.jobExecution ("Job " ++ jobId ++ " failed")) := by
      simpa [UsersApi.jobCond] using isJobComplete_failed (fetch 0) jobId hst
    have h := checkCondition_error_step _ d (1000 * s) (1000 * m) fuel 0 0 _
      hfuel he
    simpa [UsersApi.waitUntilJobCompletes, UsersUtils.waitForCondition]
      using h

/-- C2 witness: a job reported `FAILED` on the first poll makes
`waitUntilJobCompletes` (defaults: 5 s sleep, 600 s budget) reject with
`JobExecutionError` identifying job `j1`, after exactly one fetch. -/
theorem waitUntilJobCompletes_failed_rejects_witness :
    UsersApi.waitUntilJobCompletes failedFetch (.str "j1") dZero 5 600 9
      = some (.rejected (.jobExecution "Job j1 failed"), 1, 0) := by
  have h := waitUntilJobCompletes_failed_rejects.2 failedFetch "j1" dZero
    5 600 9 (by decide) rfl
  simpa using h

/-- C7 counterexample: `waitUntilJobCompletes` does not pass the
caller-given values through in the same time units.  Against an
always-`QUEUED` remote with `sleepTime = 1`, `maxWaitTime = 1`, the actual
call times out at instant 2000 (budget and sleep in milliseconds, seconds
multiplied by 1000), whereas `waitForCondition` invoked with the
caller-given values `1`/`1` themselves times out at instant 2 — the two
runs differ. -/
theorem waitUntilJobCompletes_units_counterexample :
    UsersApi.waitUntilJobCompletes pendingFetch (.str "job1") dZero 1 1 5
      = some (.rejected (.apiTimeout "Maximum wait time exceeded"), 3, 2000)
    ∧ UsersUtils.waitForCondition
        (UsersApi.jobCond pendingFetch (.str "job1")) dZero 1 1 5
      = some (.rejected (.apiTimeout "Maximum wait time exceeded"), 3, 2)
    ∧ UsersApi.waitUntilJobCompletes pendingFetch (.str "job1") dZero 1 1 5
      ≠ UsersUtils.waitForCondition
          (UsersApi.jobCond pendingFetch (.str "job1")) dZero 1 1 5 := by
  refine ⟨rfl, rfl, ?_⟩
  intro h
  rw [show UsersApi.waitUntilJobCompletes pendingFetch (.str "job1") dZero 1 1 5
      = some (.rejected (.apiTimeout "Maximum wait time exceeded"), 3, 2000)
      from rfl,
    show UsersUtils.waitForCondition
        (UsersApi.jobCond pendingFetch (.str "job1")) dZero 1 1 5
      = some (.rejected (.apiTimeout "Maximum wait time exceeded"), 3, 2)
      from rfl] at h
  simp at h

/-- C7 (amended): `waitUntilJobCompletes` performs no timing logic beyond
unit conversion: it is exactly `waitForCondition` applied to the
job-completion condition bound to the job ID, with sleep time
`1000 * sleepTime` and budget `1000 * maxWaitTime` — the caller-given
seconds converted to the poller's milliseconds. -/
theorem waitUntilJobCompletes_delegates_ms :
    ∀ (fetch : Nat → Value → Except JSError Value) (jobId : Value)
      (d : Nat → Nat) (s m fuel : Nat),
      UsersApi.waitUntilJobCompletes fetch jobId d s m fuel
        = UsersUtils.waitForCondition (UsersApi.jobCond fetch jobId) d
            (1000 * s) (1000 * m) fuel :=
  fun _ _ _ _ _ _ => rfl

/-- C10: `getJobState` called with neither a `jobId` nor a `job` throws an
`APIError` with code 400 and issues no remote request; and with a truthy
`jobId` the state comes from the remote `getJobDetails(jobId)` fetch (one
request, for that ID) with the passed `job` object ignored entirely. -/
theorem getJobState_argument_handling :
    (∀ details, UsersApi.getJobState details .undefined .undefined
        = (.error (.apiError "Either `jobId` or `job` must be provided" 400),
            []))
    ∧ (∀ (details : Value → Except JSError Value) (jobId job : Value),
        truthy jobId = true →
        UsersApi.getJobState details jobId job
          = ((details jobId).bind (fun dd => jsGet dd "state"), [jobId])) := by
  constructor
  · intro details; rfl
  · intro details jobId job h
    simp [UsersApi.getJobState, h]

/-- C10 witness: with a remote reporting `RUNNING`, a job ID together with
a job object claiming `FAILED` yields the remotely fetched `RUNNING` state
(one request, the job object ignored), and passing neither yields the
400 `APIError` with no request. -/
theorem getJobState_argument_handling_witness :
    UsersApi.getJobState runningDetails (.str "j1")
        (.obj [("state", .str "FAILED")])
      = (.ok (.str "RUNNING"), [.str "j1"])
    ∧ UsersApi.getJobState runningDetails .undefined .undefined
      = (.error (.apiError "Either `jobId` or `job` must be provided" 400),
          []) := by
  constructor
  · rw [getJobState_argument_handling.2 runningDetails (.str "j1")
      (.obj [("state", .str "FAILED")]) rfl]
    rfl
  · exact getJobState_argument_handling.1 runningDetails

/-- Helper: `_recurse` is the identity on plain values (it deep-copies
structurally), proved by strong induction on size. -/
theorem recurse_id_all :
    ∀ n : Nat,
      (∀ v : Value, sizeOf v ≤ n → UsersJobs.recurseValue v = v)
      ∧ (∀ xs : List Value, sizeOf xs ≤ n → UsersJobs.recurseList xs = xs)
      ∧ (∀ fs : List (String × Value), sizeOf fs ≤ n →
          UsersJobs.recurseObj fs = fs) := by
  intro n
  induction n with
  | zero =>
    refine ⟨?_, ?_, ?_⟩
    · intro v hv; cases v <;> simp at hv
    · intro xs h; cases xs <;> simp at h
    · intro fs h; cases fs <;> simp at h
  | succ n ih =>
    obtain ⟨ihv, ihl, ihp⟩ := ih
    refine ⟨?_, ?_, ?_⟩
    · intro v hv
      cases v with
      | arr xs =>
        have hx : sizeOf xs ≤ n := by simp at hv; omega
        simp [UsersJobs.recurseValue, ihl xs hx]
      | obj fs =>
        have hx : sizeOf fs ≤ n := by simp at hv; omega
        simp [UsersJobs.recurseValue, ihp fs hx]
      | null => simp [UsersJobs.recurseValue]
      | undefined => simp [UsersJobs.recurseValue]
      | bool b => simp [UsersJobs.recurseValue]
      | num m => simp [UsersJobs.recurseValue]
      | str s => simp [UsersJobs.recurseValue]
    · intro xs h
      cases xs with
      | nil => simp [UsersJobs.recurseList]
      | cons x xs =>
        have h1 : sizeOf x ≤ n := by simp at h; omega
        have h2 : sizeOf xs ≤ n := by simp at h; omega
        simp [UsersJobs.recurseList, ihv x h1, ihl xs h2]
    · intro fs h
      cases fs with
      | nil => simp [UsersJobs.recurseObj]
      | cons p fs =>
        obtain ⟨k, v⟩ := p
        have h1 : sizeOf v ≤ n := by simp at h; omega
        have h2 : sizeOf fs ≤ n := by simp at h; omega
        simp [UsersJobs.recurseObj, ihv v h1, ihp fs h2]

/-- Helper: `_recurse` is the identity on every plain value. -/
theorem recurseValue_id (v : Value) : UsersJobs.recurseValue v = v :=
  (recurse_id_all (sizeOf v)).1 v le_rfl

/-- Helper: parsing the serialized wrapper of a constructible data ID
(neither `null` nor `undefined`) recovers that data ID. -/
theorem rdpFromObject_datapair (d : Value) (h1 : d ≠ .null)
    (h2 : d ≠ .undefined) :
    UsersJobs.rdpFromObject (.obj [(UsersJobs.DATA_ID_FIELD, d)]) = .ok d := by
  cases d <;>
    simp_all [UsersJobs.rdpFromObject, lookupKey, UsersJobs.DATA_ID_FIELD]

/-- Helper: serializing a `RemoteDataPath` with a non-null data ID yields
the `data-id` wrapper object. -/
theorem jvalToObject_rdp (d : Value) (h1 : d ≠ .null) :
    UsersJobs.jvalToObject (.rdp d)
      = .ok (.obj [(UsersJobs.DATA_ID_FIELD, d)]) := by
  have hd : UsersJobs.rdpHasDataId d = true := by
    cases d <;> simp_all [UsersJobs.rdpHasDataId]
  simp [UsersJobs.jvalToObject, UsersJobs.rdpToObject, hd, recurseValue_id]

/-- Helper: serializing a plain map value is the identity. -/
theorem jvalToObject_plain (v : Value) :
    UsersJobs.jvalToObject (.plain v) = .ok v := by
  simp [UsersJobs.jvalToObject, recurseValue_id]

/-- Helper: a value rejected by `isRemotePathObject` makes
`RemoteDataPath.fromObject` throw. -/
theorem rdpFromObject_of_not_remote (v : Value)
    (h : UsersJobs.isRemotePathObject v = false) :
    ∃ e, UsersJobs.rdpFromObject v = .error e := by
  unfold UsersJobs.isRemotePathObject at h
  match hv : UsersJobs.rdpFromObject v with
  | .ok d => simp [hv] at h
  | .error e => exact ⟨e, rfl⟩

/-- Helper: `_recurse` on a map whose entries all serialize cleanly yields
the object of their serialized forms. -/
theorem mapToObject_ser (l : List (String × UsersJobs.JVal))
    (h : ∀ p ∈ l, UsersJobs.jvalToObject p.2
      = .ok (UsersJobs.serGoodJVal p.2)) :
    UsersJobs.mapToObject l
      = .ok (l.map (fun p => (p.1, UsersJobs.serGoodJVal p.2))) := by
  induction l with
  | nil => simp [UsersJobs.mapToObject]
  | cons p rest ih =>
    obtain ⟨n, x⟩ := p
    have h1 := h (n, x) (by simp)
    have h2 : ∀ q ∈ rest, UsersJobs.jvalToObject q.2
        = .ok (UsersJobs.serGoodJVal q.2) := fun q hq => h q (by simp [hq])
    simp [UsersJobs.mapToObject, h1, ih h2]

/-- Helper: assigning a fresh key appends the binding. -/
theorem setKey_fresh (l : List (String × UsersJobs.JVal)) (k : String)
    (x : UsersJobs.JVal) (h : ∀ p ∈ l, p.1 ≠ k) :
    UsersJobs.setKey l k x = l ++ [(k, x)] := by
  have hany : l.any (fun p => p.1 == k) = false := by
    simp only [List.any_eq_false]
    intro p hp
    simp [h p hp]
  simp [UsersJobs.setKey, hany]

/-- Helper: a key about to be inserted by one of the `fromObject` loops is
fresh for the map built so far. -/
theorem fresh_of_nodup (built : List (String × UsersJobs.JVal)) (n : String)
    (ks : List String)
    (hnd : (built.map Prod.fst ++ n :: ks).Nodup) :
    ∀ q ∈ built, q.1 ≠ n := by
  intro q hq heq
  rw [List.nodup_append] at hnd
  exact hnd.2.2 (List.mem_map_of_mem Prod.fst hq) (by simp [heq])

/-- Helper: the inputs loop of `JobRequest.fromObject`, run on the
serialized form of a list of valid `RemoteDataPath` inputs with fresh,
pairwise-distinct names, appends exactly those inputs. -/
theorem setInputsFromObj_build (l : List (String × UsersJobs.JVal)) :
    ∀ jr : UsersJobs.JobRequest,
      (∀ p ∈ l, ∃ d, p.2 = .rdp d ∧ d ≠ .null ∧ d ≠ .undefined) →
      ((jr.inputs ++ l).map Prod.fst).Nodup →
      UsersJobs.setInputsFromObj jr
          (l.map (fun p => (p.1, UsersJobs.serGoodJVal p.2)))
        = .ok { jr with inputs := jr.inputs ++ l } := by
  induction l with
  | nil =>
    intro jr _ _
    simp [UsersJobs.setInputsFromObj]
  | cons p rest ih =>
    intro jr hgood hnd
    obtain ⟨n, x⟩ := p
    obtain ⟨d, hx, h1, h2⟩ := hgood (n, x) (by simp)
    have hx' : x = UsersJobs.JVal.rdp d := hx
    subst hx'
    have hnd0 : (jr.inputs.map Prod.fst ++ n :: rest.map Prod.fst).Nodup := by
      simpa using hnd
    have hfresh := fresh_of_nodup jr.inputs n (rest.map Prod.fst) hnd0
    have hset : jr.setInput n (.rdp d)
        = { jr with inputs := jr.inputs ++ [(n, .rdp d)] } := by
      simp [UsersJobs.JobRequest.setInput, setKey_fresh jr.inputs n _ hfresh]
    have hgood' : ∀ q ∈ rest, ∃ d, q.2 = .rdp d ∧ d ≠ .null ∧ d ≠ .undefined :=
      fun q hq => hgood q (by simp [hq])
    have hnd' :
        ((({ jr with inputs := jr.inputs ++ [(n, UsersJobs.JVal.rdp d)] }
            : UsersJobs.JobRequest).inputs ++ rest).map Prod.fst).Nodup := by
      simpa [List.append_assoc] using hnd
    have hrec := ih { jr with inputs := jr.inputs ++ [(n, .rdp d)] }
      hgood' hnd'
    have hserd : UsersJobs.serGoodJVal (UsersJobs.JVal.rdp d)
        = Value.obj [(UsersJobs.DATA_ID_FIELD, d)] := rfl
    simp only [List.map_cons, UsersJobs.setInputsFromObj]
    rw [hserd, rdpFromObject_datapair d h1 h2]
    simp [hset, hrec, List.append_assoc]

/-- Helper: the parameters loop of `JobRequest.fromObject`, run on the
serialized form of a list of parameters (valid `RemoteDataPath`s or plain
values not shaped like remote paths) with fresh, pairwise-distinct names,
appends exactly those parameters with the same classification. -/
theorem setParamsFromObj_build (l : List (String × UsersJobs.JVal)) :
    ∀ jr : UsersJobs.JobRequest,
      (∀ p ∈ l, (∃ d, p.2 = .rdp d ∧ d ≠ .null ∧ d ≠ .undefined)
        ∨ (∃ v, p.2 = .plain v ∧ UsersJobs.isRemotePathObject v = false)) →
      ((jr.parameters ++ l).map Prod.fst).Nodup →
      UsersJobs.setParamsFromObj jr
          (l.map (fun p => (p.1, UsersJobs.serGoodJVal p.2)))
        = { jr with parameters := jr.parameters ++ l } := by
  induction l with
  | nil =>
    intro jr _ _
    simp [UsersJobs.setParamsFromObj]
  | cons p rest ih =>
    intro jr hgood hnd
    obtain ⟨n, x⟩ := p
    have hnd0 :
        (jr.parameters.map Prod.fst ++ n :: rest.map Prod.fst).Nodup := by
      simpa using hnd
    have hfresh := fresh_of_nodup jr.parameters n (rest.map Prod.fst) hnd0
    have hgood' : ∀ q ∈ rest,
        (∃ d, q.2 = .rdp d ∧ d ≠ .null ∧ d ≠ .undefined)
          ∨ (∃ v, q.2 = .plain v ∧ UsersJobs.isRemotePathObject v = false) :=
      fun q hq => hgood q (by simp [hq])
    rcases hgood (n, x) (by simp) with ⟨d, hx, h1, h2⟩ | ⟨v, hx, hnr⟩
    · have hx' : x = UsersJobs.JVal.rdp d := hx
      subst hx'
      have hset : jr.setDataParameter n (.rdp d)
          = { jr with parameters := jr.parameters ++ [(n, .rdp d)] } := by
        simp [UsersJobs.JobRequest.setDataParameter,
          setKey_fresh jr.parameters n _ hfresh]
      have hnd' :
          ((({ jr with parameters :=
                jr.parameters ++ [(n, UsersJobs.JVal.rdp d)] }
              : UsersJobs.JobRequest).parameters ++ rest).map Prod.fst).Nodup := by
        simpa [List.append_assoc] using hnd
      have hrec := ih { jr with parameters := jr.parameters ++ [(n, .rdp d)] }
        hgood' hnd'
      have hserd : UsersJobs.serGoodJVal (UsersJobs.JVal.rdp d)
          = Value.obj [(UsersJobs.DATA_ID_FIELD, d)] := rfl
      simp only [List.map_cons, UsersJobs.setParamsFromObj]
      rw [hserd, rdpFromObject_datapair d h1 h2]
      simp [hset, hrec, List.append_assoc]
    · have hx' : x = UsersJobs.JVal.plain v := hx
      subst hx'
      obtain ⟨e, he⟩ := rdpFromObject_of_not_remote v hnr
      have hset : jr.setParameter n (.plain v)
          = { jr with parameters := jr.parameters ++ [(n, .plain v)] } := by
        simp [UsersJobs.JobRequest.setParameter,
          setKey_fresh jr.parameters n _ hfresh]
      have hnd' :
          ((({ jr with parameters :=
                jr.parameters ++ [(n, UsersJobs.JVal.plain v)] }
              : UsersJobs.JobRequest).parameters ++ rest).map Prod.fst).Nodup := by
        simpa [List.append_assoc] using hnd
      have hrec := ih
        { jr with parameters := jr.parameters ++ [(n, .plain v)] }
        hgood' hnd'
      have hserv : UsersJobs.serGoodJVal (UsersJobs.JVal.plain v) = v := rfl
      simp only [List.map_cons, UsersJobs.setParamsFromObj]
      rw [hserv, he]
      simp [hset, hrec, List.append_assoc]

/-- C9: serialization round trip for job requests.  For every `JobRequest`
with a non-nullish analytic, `version` and `computeMode` each null or a
string, every input a valid (constructible) `RemoteDataPath`, every
parameter either such a `RemoteDataPath` or a plain JSON value that
`isRemotePathObject` rejects, and pairwise-distinct input and parameter
names, `JobRequest.fromObject(jr.toObject())` succeeds and rebuilds `jr`
exactly: same analytic, version, compute mode, inputs and parameters, with
data and non-data parameters classified the same way. -/
theorem jobRequest_roundTrip (jr : UsersJobs.JobRequest)
    (ha : isNullOrUndefined jr.analytic = false)
    (hv : jr.version = .null ∨ ∃ s, jr.version = .str s)
    (hc : jr.computeMode = .null ∨ ∃ s, jr.computeMode = .str s)
    (hi : ∀ p ∈ jr.inputs,
      ∃ d, p.2 = UsersJobs.JVal.rdp d ∧ d ≠ .null ∧ d ≠ .undefined)
    (hiN : (jr.inputs.map Prod.fst).Nodup)
    (hp : ∀ p ∈ jr.parameters,
      (∃ d, p.2 = UsersJobs.JVal.rdp d ∧ d ≠ .null ∧ d ≠ .undefined)
        ∨ (∃ v, p.2 = UsersJobs.JVal.plain v
            ∧ UsersJobs.isRemotePathObject v = false))
    (hpN : (jr.parameters.map Prod.fst).Nodup) :
    ∃ o, UsersJobs.JobRequest.toObject jr = .ok o
      ∧ UsersJobs.JobRequest.fromObject o = .ok jr := by
  obtain ⟨an, ver, cm, ins, pars⟩ := jr
  simp only at ha hv hc hi hiN hp hpN
  have hiSer : ∀ p ∈ ins, UsersJobs.jvalToObject p.2
      = .ok (UsersJobs.serGoodJVal p.2) := by
    intro p hp'
    obtain ⟨d, hx, h1, h2⟩ := hi p hp'
    rw [hx]
    simpa [UsersJobs.serGoodJVal] using jvalToObject_rdp d h1
  have hpSer : ∀ p ∈ pars, UsersJobs.jvalToObject p.2
      = .ok (UsersJobs.serGoodJVal p.2) := by
    intro p hp'
    rcases hp p hp' with ⟨d, hx, h1, h2⟩ | ⟨v, hx, hnr⟩
    · rw [hx]
      simpa [UsersJobs.serGoodJVal] using jvalToObject_rdp d h1
    · rw [hx]
      simpa [UsersJobs.serGoodJVal] using jvalToObject_plain v
  have hIns := mapToObject_ser ins hiSer
  have hPars := mapToObject_ser pars hpSer
  rcases hv with hv | ⟨sv, hv⟩ <;> rcases hc with hc | ⟨sc, hc⟩ <;> subst hv hc
  · refine ⟨.obj ([("analytic", an),
      ("inputs", .obj (ins.map (fun p => (p.1, UsersJobs.serGoodJVal p.2)))),
      ("parameters",
        .obj (pars.map (fun p => (p.1, UsersJobs.serGoodJVal p.2))))]),
      ?_, ?_⟩
    · simp [UsersJobs.JobRequest.toObject, hIns, hPars, isNullOrUndefined,
        recurseValue_id]
    · have hbI := setInputsFromObj_build ins
        { analytic := an, version := Value.null, computeMode := Value.null,
          inputs := [], parameters := [] } hi (by simpa using hiN)
      have hbP := setParamsFromObj_build pars
        { analytic := an, version := Value.null, computeMode := Value.null,
          inputs := ins, parameters := [] } hp (by simpa using hpN)
      simp only [List.nil_append] at hbI hbP
      simp [UsersJobs.JobRequest.fromObject, jsGet, lookupKey,
        UsersJobs.forInPairs, hbI, hbP]
  · refine ⟨.obj ([("analytic", an),
      ("compute_mode", Value.str sc),
      ("inputs", .obj (ins.map (fun p => (p.1, UsersJobs.serGoodJVal p.2)))),
      ("parameters",
        .obj (pars.map (fun p => (p.1, UsersJobs.serGoodJVal p.2))))]),
      ?_, ?_⟩
    · simp [UsersJobs.JobRequest.toObject, hIns, hPars, isNullOrUndefined,
        recurseValue_id]
    · have hbI := setInputsFromObj_build ins
        { analytic := an, version := Value.null, computeMode := Value.str sc,
          inputs := [], parameters := [] } hi (by simpa using hiN)
      have hbP := setParamsFromObj_build pars
        { analytic := an, version := Value.null, computeMode := Value.str sc,
          inputs := ins, parameters := [] } hp (by simpa using hpN)
      simp only [List.nil_append] at hbI hbP
      simp [UsersJobs.JobRequest.fromObject, jsGet, lookupKey,
        UsersJobs.forInPairs, hbI, hbP]
  · refine ⟨.obj ([("analytic", an),
      ("version", Value.str sv),
      ("inputs", .obj (ins.map (fun p => (p.1, UsersJobs.serGoodJVal p.2)))),
      ("parameters",
        .obj (pars.map (fun p => (p.1, UsersJobs.serGoodJVal p.2))))]),
      ?_, ?_⟩
    · simp [UsersJobs.JobRequest.toObject, hIns, hPars, isNullOrUndefined,
        recurseValue_id]
    · have hbI := setInputsFromObj_build ins
        { analytic := an, version := Value.str sv, computeMode := Value.null,
          inputs := [], parameters := [] } hi (by simpa using hiN)
      have hbP := setParamsFromObj_build pars
        { analytic := an, version := Value.str sv, computeMode := Value.null,
          inputs := ins, parameters := [] } hp (by simpa using hpN)
      simp only [List.nil_append] at hbI hbP
      simp [UsersJobs.JobRequest.fromObject, jsGet, lookupKey,
        UsersJobs.forInPairs, hbI, hbP]
  · refine ⟨.obj ([("analytic", an),
      ("version", Value.str sv),
      ("compute_mode", Value.str sc),
      ("inputs", .obj (ins.map (fun p => (p.1, UsersJobs.serGoodJVal p.2)))),
      ("parameters",
        .obj (pars.map (fun p => (p.1, UsersJobs.serGoodJVal p.2))))]),
      ?_, ?_⟩
    · simp [UsersJobs.JobRequest.toObject, hIns, hPars, isNullOrUndefined,
        recurseValue_id]
    · have hbI := setInputsFromObj_build ins
        { analytic := an, version := Value.str sv,
          computeMode := Value.str sc, inputs := [], parameters := [] } hi
        (by simpa using hiN)
      have hbP := setParamsFromObj_build pars
        { analytic := an, version := Value.str sv,
          computeMode := Value.str sc, inputs := ins, parameters := [] } hp
        (by simpa using hpN)
      simp only [List.nil_append] at hbI hbP
      simp [UsersJobs.JobRequest.fromObject, jsGet, lookupKey,
        UsersJobs.forInPairs, hbI, hbP]

/-- C9 witness: the concrete job request round-trips through
`toObject`/`fromObject` unchanged. -/
theorem jobRequest_roundTrip_witness :
    ∃ o, UsersJobs.JobRequest.toObject wjr = .ok o
      ∧ UsersJobs.JobRequest.fromObject o = .ok wjr := by
  refine jobRequest_roundTrip wjr rfl (Or.inl rfl) (Or.inr ⟨"GPU", rfl⟩)
    ?_ (by simp [wjr]) ?_ (by simp [wjr])
  · intro p hp
    simp only [wjr, List.mem_singleton] at hp
    subst hp
    exact ⟨.str "d1", rfl, by simp, by simp⟩
  · intro p hp
    simp only [wjr, List.mem_cons, List.mem_singleton] at hp
    rcases hp with h | h
    · subst h
      exact Or.inr ⟨.num 5, rfl, rfl⟩
    · rcases h with h | h
      · subst h
        exact Or.inl ⟨.str "d2", rfl, by simp, by simp⟩
      · simp at h
